import Mathlib

/-!
Verification development for the border-cropping node in
`comfyui_crop_border.py` (class `CropImageBorder`).

The image buffers are dense float tensors; we embed them as a shape
(list of dimension sizes) together with row-major flattened rational
data.  All functions of the source file are translated directly:
`_check_row`, `_check_col`, `_detect_borders` (with its two `while`
scans per axis, written as fuel recursion — the fuel `H` resp. `W`
strictly bounds the loop count), and `crop_border` including its
batch squeeze, layout permutes, the crop, and the `try/except` whose
handler returns the *current* value of the `image` variable.
Exceptions of the Python/torch code are modelled with `Except`, the
error payload being the value the `image` variable holds when the
exception is raised.
-/

/-- A dense tensor: dimension sizes plus row-major flattened data. -/
structure Tensor where
  shape : List ℕ
  data : List ℚ
deriving DecidableEq

/-- `img.shape[i]` with default 0 (matching how the source reads sizes). -/
def dim (img : Tensor) (i : ℕ) : ℕ := img.shape.getD i 0

/-- Row-major build of a 3-D block of data, outer dimension `a`. -/
def ofFn3 (a b c : ℕ) (f : ℕ → ℕ → ℕ → ℚ) : List ℚ :=
  (List.range (a * b * c)).map fun n => f (n / (b * c)) (n / c % b) (n % c)

/-- Element access for a channel-first `[C, H, W]` tensor: `img[c, h, w]`. -/
def at3 (img : Tensor) (c h w : ℕ) : ℚ :=
  img.data.getD ((c * dim img 1 + h) * dim img 2 + w) 0

/-- Element access for a channel-last `[H, W, C]` tensor: `img[h, w, c]`. -/
def atHWC (img : Tensor) (h w c : ℕ) : ℚ :=
  img.data.getD ((h * dim img 1 + w) * dim img 2 + c) 0

/-- `_check_row`: `row_data = img[:, row, :]; torch.all(|row_data - target| < threshold)`.
Every channel sample of the row must be strictly within `threshold` of `target`. -/
def _check_row (img : Tensor) (row : ℕ) (threshold target : ℚ) : Bool :=
  (List.range (dim img 0)).all fun c =>
    (List.range (dim img 2)).all fun w => decide (|at3 img c row w - target| < threshold)

/-- `_check_col`: `col_data = img[:, :, col]; torch.all(|col_data - target| < threshold)`. -/
def _check_col (img : Tensor) (col : ℕ) (threshold target : ℚ) : Bool :=
  (List.range (dim img 0)).all fun c =>
    (List.range (dim img 1)).all fun h => decide (|at3 img c h col - target| < threshold)

/-- `torch.mean(img[:, :10, :10])` for a `[C, H, W]` tensor: mean over all
samples of the corner slice (slices clamp to the axis length).  torch yields
NaN for an empty slice and `NaN > 0.5` is false; we model that mean as 0,
which fails the `> 0.5` test the same way. -/
def corner_mean (img : Tensor) : ℚ :=
  let C := dim img 0
  let H := dim img 1
  let W := dim img 2
  let n := C * min 10 H * min 10 W
  if n = 0 then 0
  else (((List.range C).map fun c =>
          (((List.range (min 10 H)).map fun h =>
            (((List.range (min 10 W)).map fun w => at3 img c h w).sum)).sum)).sum) / (n : ℚ)

/-- The top/left `while` scan of `_detect_borders`:
`while pos < n and check(pos): pos += 1; if pos >= n - 1: pos = 0; break`.
Fuel recursion; fuel `n` (supplied by `scanTop`) outlasts the loop, which
advances `pos` by one per iteration and stops before `pos` reaches `n - 1`. -/
def topLoop (check : ℕ → Bool) (n : ℕ) : ℕ → ℕ → ℕ
  | 0, pos => pos
  | fuel + 1, pos =>
    if pos < n ∧ check pos = true then
      if pos + 1 ≥ n - 1 then 0 else topLoop check n fuel (pos + 1)
    else pos

def scanTop (check : ℕ → Bool) (n : ℕ) : ℕ := topLoop check n n 0

/-- The bottom/right `while` scan of `_detect_borders`:
`while pos > lo and check(pos): pos -= 1; if pos <= lo: pos = n - 1; break`. -/
def bottomLoop (check : ℕ → Bool) (n lo : ℕ) : ℕ → ℕ → ℕ
  | 0, pos => pos
  | fuel + 1, pos =>
    if lo < pos ∧ check pos = true then
      if pos - 1 ≤ lo then n - 1 else bottomLoop check n lo fuel (pos - 1)
    else pos

def scanBottom (check : ℕ → Bool) (n lo : ℕ) : ℕ := bottomLoop check n lo n (n - 1)

/-- `_detect_borders`: corner-patch white/black decision, the four edge scans,
and the validation that falls back to the sentinel `(0, 0, H, W)`.  The caller
guarantees a `[C, H, W]` shape (it unpacked it already). -/
def _detect_borders (img : Tensor) (threshold : ℚ) : ℕ × ℕ × ℕ × ℕ :=
  let H := dim img 1
  let W := dim img 2
  let target : ℚ := if corner_mean img > 1/2 then 1 else 0
  let top := scanTop (fun r => _check_row img r threshold target) H
  let bottom := scanBottom (fun r => _check_row img r threshold target) H top
  let left := scanTop (fun c => _check_col img c threshold target) W
  let right := scanBottom (fun c => _check_col img c threshold target) W left
  if top ≥ bottom ∨ left ≥ right ∨
     top < 0 ∨ bottom ≥ H ∨ left < 0 ∨ right ≥ W ∨
     (top = 0 ∧ bottom = H - 1 ∧ left = 0 ∧ right = W - 1) then
    (0, 0, H, W)
  else (top, left, bottom, right)

/-- `image.unsqueeze(0)`. -/
def unsqueeze (img : Tensor) : Tensor := ⟨1 :: img.shape, img.data⟩

/-- `image[0]`: first slice along the leading axis (caller checks it exists). -/
def index0 (img : Tensor) : Tensor := ⟨img.shape.tail, img.data.take img.shape.tail.prod⟩

/-- `image.permute(2, 0, 1)` on a `[H, W, C]` tensor, giving `[C, H, W]`. -/
def permute201 (img : Tensor) : Tensor :=
  ⟨[dim img 2, dim img 0, dim img 1],
   ofFn3 (dim img 2) (dim img 0) (dim img 1) fun c h w =>
     img.data.getD ((h * dim img 1 + w) * dim img 2 + c) 0⟩

/-- `image.permute(1, 2, 0)` on a `[C, H, W]` tensor, giving `[H, W, C]`. -/
def permute120 (img : Tensor) : Tensor :=
  ⟨[dim img 1, dim img 2, dim img 0],
   ofFn3 (dim img 1) (dim img 2) (dim img 0) fun h w c =>
     img.data.getD ((c * dim img 1 + h) * dim img 2 + w) 0⟩

/-- `image[:, top:bottom, left:right].contiguous()` on a `[C, H, W]` tensor
(the crop path only runs with `top < bottom ≤ H`, `left < right ≤ W`). -/
def slice3 (img : Tensor) (top bottom left right : ℕ) : Tensor :=
  ⟨[dim img 0, bottom - top, right - left],
   ofFn3 (dim img 0) (bottom - top) (right - left) fun c i j =>
     img.data.getD ((c * dim img 1 + (top + i)) * dim img 2 + (left + j)) 0⟩

/-- `if len(image.shape) == 3 and image.shape[0] == 3: image = image.permute(1, 2, 0)`:
the back-conversion applied before every return of `crop_border`. -/
def restore_hwc (img : Tensor) : Tensor :=
  if img.shape.length = 3 ∧ img.shape.headD 0 = 3 then permute120 img else img

/-- Lines 108-148 of `crop_border` (everything after the batch squeeze):
the HWC→CHW permute (raising when the rank is not 3 while the last axis is 3),
the `C, H, W` unpack (raising when the rank is not 3), the min/max report
(raising on an empty tensor), border detection, the no-border and
crop-too-small returns, and the crop itself.  An error carries the value the
`image` variable holds at the raise. -/
def crop_border_rest (image : Tensor) (threshold : ℚ) : Except Tensor Tensor :=
  if image.shape.getLastD 0 = 3 ∧ ¬ image.shape.length = 3 then .error image
  else
    let img2 := if image.shape.getLastD 0 = 3 then permute201 image else image
    if ¬ img2.shape.length = 3 then .error img2
    else if img2.shape.prod = 0 then .error img2
    else
      match _detect_borders img2 threshold with
      | (top, left, bottom, right) =>
        let H := dim img2 1
        let W := dim img2 2
        if top = 0 ∧ left = 0 ∧ bottom = H ∧ right = W then
          .ok (unsqueeze (restore_hwc img2))
        else if bottom - top < 10 ∨ right - left < 10 then
          .ok (unsqueeze (restore_hwc img2))
        else
          .ok (unsqueeze (restore_hwc (slice3 img2 top bottom left right)))

/-- The whole `try` block of `crop_border`: batch squeeze (`image = image[0]`,
raising on an empty batch) followed by `crop_border_rest`. -/
def crop_border_body (image : Tensor) (threshold : ℚ) : Except Tensor Tensor :=
  if image.shape.length = 4 then
    if image.shape.headD 0 = 0 then .error image
    else crop_border_rest (index0 image) threshold
  else crop_border_rest image threshold

/-- `crop_border`, including the `except` handler: on any exception it returns
the current `image` (with a batch axis prepended unless it is already 4-D). -/
def crop_border (image : Tensor) (threshold : ℚ) : Tensor :=
  match crop_border_body image threshold with
  | .ok out => out
  | .error cur => if cur.shape.length = 4 then cur else unsqueeze cur

/-- Following the spec's words (refinement comparison for the per-pixel rule):
reduce the pixel to a single-channel intensity by the mean across its color
channels and classify it as border when that mean is within `tolerance` of
the target value. -/
def spec_pixel_is_border (img : Tensor) (h w : ℕ) (tolerance target : ℚ) : Bool :=
  decide (|(((List.range (dim img 0)).map fun c => at3 img c h w).sum / (dim img 0 : ℚ)) - target| ≤ tolerance)

/-- Following the spec's words: a row is border when every one of its pixels
is border under the mean-intensity rule. -/
def spec_row_is_border (img : Tensor) (row : ℕ) (tolerance target : ℚ) : Bool :=
  (List.range (dim img 2)).all fun w => spec_pixel_is_border img row w tolerance target

/-- Channel-last test image builder: shape `[H, W, 3]`. -/
def mkHWC (H W : ℕ) (f : ℕ → ℕ → ℕ → ℚ) : Tensor := ⟨[H, W, 3], ofFn3 H W 3 f⟩

/-- 21×21 RGB image with an exactly-white 5-pixel frame and all-black interior. -/
def frame21 : Tensor := mkHWC 21 21 fun h w _ => if h < 5 ∨ 16 ≤ h ∨ w < 5 ∨ 16 ≤ w then 1 else 0

/-- `frame21` with every sample scaled by 255 (a [0,255]-range copy). -/
def frame21x255 : Tensor := mkHWC 21 21 fun h w _ => if h < 5 ∨ 16 ≤ h ∨ w < 5 ∨ 16 ≤ w then 255 else 0

/-- 12×12 RGB image: 1-pixel white frame around a uniform mid-gray interior;
its detected crop rectangle is 9×9, below the 10-pixel floor. -/
def gray12 : Tensor := mkHWC 12 12 fun h w _ => if h = 0 ∨ h = 11 ∨ w = 0 ∨ w = 11 then 1 else 1/2


/-- 12×12 RGB image whose top ten rows are exactly white and bottom two rows
mid-gray: the scans leave a 1-pixel-high rectangle, far below the floor. -/
def hi12 : Tensor := mkHWC 12 12 fun h _ _ => if h < 10 then 1 else 1/2

/-- Single-pixel channel-first `[3, 1, 1]` image with channel values 1, 1, 0.97. -/
def pixel3 : Tensor := ⟨[3, 1, 1], [1, 1, 97/100]⟩

/-- A 2-D buffer (unsupported rank). -/
def twoD4 : Tensor := ⟨[4, 4], List.replicate 16 (1/2)⟩

/-- A 5-D buffer (unsupported rank). -/
def fiveD : Tensor := ⟨[1, 1, 2, 2, 3], List.replicate 12 (1/5)⟩

/-- Another 2-D buffer (unsupported rank), for the error-policy instance. -/
def twoD2 : Tensor := ⟨[2, 2], List.replicate 4 1⟩

/-- A 4-D batch holding one zero-height HWC image: well-shaped enough that the
body batch-squeezes and permutes it before `min()` raises on the empty tensor. -/
def emptyBatch : Tensor := ⟨[1, 0, 5, 3], []⟩

/-- A batch of two 1×1 RGB images with different contents. -/
def batch2 : Tensor := ⟨[2, 1, 1, 3], [1, 1, 1, 0, 0, 0]⟩

/-- Uniform 1×1 RGB channel-last image. -/
def unif113 : Tensor := ⟨[1, 1, 3], List.replicate (1 * 1 * 3) (1/5)⟩

/-- Uniform 1×1 RGB channel-first image. -/
def unifCHW : Tensor := ⟨[3, 1, 1], List.replicate (3 * 1 * 1) (1/2)⟩

/-- Uniform channel-first `[3, 5, 7]` image for the layout counterexample. -/
def chw357 : Tensor := ⟨[3, 5, 7], List.replicate (3 * 5 * 7) (1/5)⟩

/-! ### Flat-index arithmetic for `ofFn3` -/

theorem encode3_lt {a b c i j k : ℕ} (hi : i < a) (hj : j < b) (hk : k < c) :
    (i * b + j) * c + k < a * b * c := by
  have h2 : (i + 1) * b ≤ a * b := Nat.mul_le_mul_right b (by omega)
  have h3 : (i + 1) * b = i * b + b := by ring
  have h4 : (i * b + j + 1) * c ≤ (a * b) * c := Nat.mul_le_mul_right c (by omega)
  have h5 : (i * b + j + 1) * c = (i * b + j) * c + c := by ring
  omega

theorem getD_range_map (f : ℕ → ℚ) {n m : ℕ} (h : m < n) :
    ((List.range n).map f).getD m 0 = f m := by
  rw [List.getD_eq_getElem?_getD, List.getElem?_map, List.getElem?_range h]
  rfl

theorem length_ofFn3 (a b c : ℕ) (f : ℕ → ℕ → ℕ → ℚ) :
    (ofFn3 a b c f).length = a * b * c := by
  simp [ofFn3]

theorem decode3_encode {a b c i j k : ℕ} (hi : i < a) (hj : j < b) (hk : k < c) :
    ((i * b + j) * c + k) / (b * c) = i ∧ ((i * b + j) * c + k) / c % b = j ∧
      ((i * b + j) * c + k) % c = k := by
  have hb : 0 < b := by omega
  have hc : 0 < c := by omega
  have e1 : (i * b + j) * c + k = b * c * i + (j * c + k) := by ring
  have hjc : (j + 1) * c ≤ b * c := Nat.mul_le_mul_right c (by omega)
  have hjc2 : (j + 1) * c = j * c + c := by ring
  have hjk : j * c + k < b * c := by omega
  have e2 : (i * b + j) * c + k = c * (i * b + j) + k := by ring
  refine ⟨?_, ?_, ?_⟩
  · rw [e1, Nat.mul_add_div (by positivity), Nat.div_eq_of_lt hjk]
    omega
  · rw [e2, Nat.mul_add_div hc, Nat.div_eq_of_lt hk, Nat.add_zero, Nat.add_comm,
      Nat.add_mul_mod_self_right, Nat.mod_eq_of_lt hj]
  · rw [e2, Nat.mul_add_mod, Nat.mod_eq_of_lt hk]

theorem getD_ofFn3 {a b c : ℕ} (f : ℕ → ℕ → ℕ → ℚ) {i j k : ℕ}
    (hi : i < a) (hj : j < b) (hk : k < c) :
    (ofFn3 a b c f).getD ((i * b + j) * c + k) 0 = f i j k := by
  unfold ofFn3
  rw [getD_range_map _ (encode3_lt hi hj hk)]
  obtain ⟨e1, e2, e3⟩ := decode3_encode hi hj hk
  rw [e1, e2, e3]

theorem ofFn3_congr {a b c : ℕ} {f g : ℕ → ℕ → ℕ → ℚ}
    (h : ∀ i < a, ∀ j < b, ∀ k < c, f i j k = g i j k) :
    ofFn3 a b c f = ofFn3 a b c g := by
  unfold ofFn3
  refine List.map_congr_left ?_
  intro n hn
  rw [List.mem_range] at hn
  have hbc : 0 < b * c := by
    rcases Nat.eq_zero_or_pos (b * c) with h0 | h0
    · have : a * b * c = 0 := by rw [Nat.mul_assoc, h0, Nat.mul_zero]
      omega
    · exact h0
  have hb : 0 < b := by
    rcases Nat.eq_zero_or_pos b with h0 | h0
    · rw [h0] at hbc; omega
    · exact h0
  have hc : 0 < c := by
    rcases Nat.eq_zero_or_pos c with h0 | h0
    · rw [h0] at hbc; omega
    · exact h0
  apply h
  · rw [Nat.div_lt_iff_lt_mul hbc, ← Nat.mul_assoc]
    exact hn
  · exact Nat.mod_lt _ hb
  · exact Nat.mod_lt _ hc

theorem ofFn3_eta {a b c : ℕ} (l : List ℚ) (hl : l.length = a * b * c) :
    ofFn3 a b c (fun i j k => l.getD ((i * b + j) * c + k) 0) = l := by
  unfold ofFn3
  apply List.ext_getElem
  · simp [hl]
  · intro n h1 h2
    simp only [List.getElem_map, List.getElem_range]
    have hn : n < a * b * c := by simpa using h1
    have hc : 0 < c := by
      rcases Nat.eq_zero_or_pos c with h0 | h0
      · rw [h0, Nat.mul_zero] at hn; omega
      · exact h0
    have hb : 0 < b := by
      rcases Nat.eq_zero_or_pos b with h0 | h0
      · rw [h0, Nat.mul_zero, Nat.zero_mul] at hn; omega
      · exact h0
    have e1 : n / (b * c) = n / c / b := by
      rw [Nat.mul_comm b c, ← Nat.div_div_eq_div_mul]
    have enc : (n / (b * c) * b + n / c % b) * c + n % c = n := by
      rw [e1]
      have e2 : n / c / b * b + n / c % b = n / c := Nat.div_add_mod' (n / c) b
      rw [e2, Nat.div_add_mod' n c]
    rw [enc]
    exact List.getD_eq_getElem l 0 h2

theorem ofFn3_const (a b c : ℕ) (v : ℚ) :
    ofFn3 a b c (fun _ _ _ => v) = List.replicate (a * b * c) v := by
  unfold ofFn3
  rw [List.map_const', List.length_range]

theorem getD_replicate {n i : ℕ} (v : ℚ) (h : i < n) :
    (List.replicate n v).getD i 0 = v := by
  rw [List.getD_eq_getElem?_getD, List.getElem?_replicate, if_pos h]
  rfl

/-! ### Basic facts about the tensor operations -/

theorem dim_mk (s : List ℕ) (d : List ℚ) (i : ℕ) : dim ⟨s, d⟩ i = s.getD i 0 := rfl

theorem shape_permute201 {img : Tensor} {H W C : ℕ} (hs : img.shape = [H, W, C]) :
    (permute201 img).shape = [C, H, W] := by
  simp [permute201, dim, hs]

theorem at3_permute201 {img : Tensor} {H W C : ℕ} (hs : img.shape = [H, W, C])
    {c h w : ℕ} (hc : c < C) (hh : h < H) (hw : w < W) :
    at3 (permute201 img) c h w = atHWC img h w c := by
  have hd0 : dim img 0 = H := by simp [dim, hs]
  have hd1 : dim img 1 = W := by simp [dim, hs]
  have hd2 : dim img 2 = C := by simp [dim, hs]
  have hp1 : dim (permute201 img) 1 = H := by simp [permute201, dim_mk, hd0]
  have hp2 : dim (permute201 img) 2 = W := by simp [permute201, dim_mk, hd1]
  show (permute201 img).data.getD _ 0 = _
  rw [show (permute201 img).data =
      ofFn3 C H W (fun c h w => img.data.getD ((h * W + w) * C + c) 0) by
    simp [permute201, hd0, hd1, hd2]]
  rw [hp1, hp2, getD_ofFn3 _ hc hh hw]
  rw [atHWC, hd1, hd2]

theorem permute_roundtrip {img : Tensor} {H W C : ℕ} (hs : img.shape = [H, W, C])
    (hl : img.data.length = H * W * C) : permute120 (permute201 img) = img := by
  have hd0 : dim img 0 = H := by simp [dim, hs]
  have hd1 : dim img 1 = W := by simp [dim, hs]
  have hd2 : dim img 2 = C := by simp [dim, hs]
  have hps : (permute201 img).shape = [C, H, W] := shape_permute201 hs
  have hq0 : dim (permute201 img) 0 = C := by simp [dim, hps]
  have hq1 : dim (permute201 img) 1 = H := by simp [dim, hps]
  have hq2 : dim (permute201 img) 2 = W := by simp [dim, hps]
  have hpd : (permute201 img).data =
      ofFn3 C H W (fun c h w => img.data.getD ((h * W + w) * C + c) 0) := by
    simp [permute201, hd0, hd1, hd2]
  obtain ⟨s, d⟩ := img
  simp only at hs hl hpd ⊢
  unfold permute120
  rw [hq0, hq1, hq2, hpd, hs]
  congr 1
  have hstep : ∀ h < H, ∀ w < W, ∀ c < C,
      (ofFn3 C H W fun c h w => d.getD ((h * W + w) * C + c) 0).getD
        ((c * H + h) * W + w) 0 = d.getD ((h * W + w) * C + c) 0 := by
    intro h hh w hw c hc
    exact getD_ofFn3 _ hc hh hw
  rw [ofFn3_congr hstep]
  exact ofFn3_eta d hl

theorem permute201_replicate (H W C : ℕ) (v : ℚ) :
    permute201 ⟨[H, W, C], List.replicate (H * W * C) v⟩ =
      ⟨[C, H, W], List.replicate (C * H * W) v⟩ := by
  unfold permute201
  simp only [dim_mk, List.getD_cons_zero, List.getD_cons_succ]
  congr 1
  rw [show (ofFn3 C H W fun c h w =>
      (List.replicate (H * W * C) v).getD ((h * W + w) * C + c) 0) =
      ofFn3 C H W (fun _ _ _ => v) from
    ofFn3_congr fun c hc h hh w hw => getD_replicate v (encode3_lt hh hw hc)]
  exact ofFn3_const C H W v

theorem permute120_replicate (C H W : ℕ) (v : ℚ) :
    permute120 ⟨[C, H, W], List.replicate (C * H * W) v⟩ =
      ⟨[H, W, C], List.replicate (H * W * C) v⟩ := by
  unfold permute120
  simp only [dim_mk, List.getD_cons_zero, List.getD_cons_succ]
  congr 1
  rw [show (ofFn3 H W C fun h w c =>
      (List.replicate (C * H * W) v).getD ((c * H + h) * W + w) 0) =
      ofFn3 H W C (fun _ _ _ => v) from
    ofFn3_congr fun h hh w hw c hc => getD_replicate v (encode3_lt hc hh hw)]
  exact ofFn3_const H W C v

/-! ### Characterizations of the edge scans -/

theorem topLoop_of_check (f : ℕ → Bool) (n k : ℕ) (hk : k < n - 1)
    (hall : ∀ r < k, f r = true) (hkf : f k = false) :
    ∀ fuel pos, pos ≤ k → k - pos < fuel → topLoop f n fuel pos = k := by
  intro fuel
  induction fuel with
  | zero => intro pos hp hlt; omega
  | succ m ih =>
    intro pos hp hlt
    by_cases hpk : pos = k
    · subst hpk
      simp [topLoop, hkf]
    · have hpk' : pos < k := lt_of_le_of_ne hp hpk
      have hf : f pos = true := hall pos hpk'
      rw [topLoop, if_pos ⟨by omega, hf⟩, if_neg (by omega)]
      exact ih (pos + 1) (by omega) (by omega)

theorem scanTop_eq (f : ℕ → Bool) (n k : ℕ) (hk : k < n - 1)
    (hall : ∀ r < k, f r = true) (hkf : f k = false) : scanTop f n = k :=
  topLoop_of_check f n k hk hall hkf n 0 (Nat.zero_le k) (by omega)

theorem topLoop_all (f : ℕ → Bool) (n : ℕ) (hall : ∀ r < n, f r = true) :
    ∀ fuel pos, pos < n - 1 → n - 1 - pos ≤ fuel → topLoop f n fuel pos = 0 := by
  intro fuel
  induction fuel with
  | zero => intro pos hp hle; omega
  | succ m ih =>
    intro pos hp hle
    rw [topLoop, if_pos ⟨by omega, hall pos (by omega)⟩]
    by_cases hend : pos + 1 ≥ n - 1
    · rw [if_pos hend]
    · rw [if_neg hend]
      exact ih (pos + 1) (by omega) (by omega)

theorem scanTop_all_eq (f : ℕ → Bool) (n : ℕ) (hall : ∀ r < n, f r = true) :
    scanTop f n = 0 := by
  match n with
  | 0 => rfl
  | 1 =>
    rw [scanTop, topLoop, if_pos ⟨by omega, hall 0 (by omega)⟩, if_pos (by omega)]
  | (m + 2) =>
    exact topLoop_all f (m + 2) hall (m + 2) 0 (by omega) (by omega)

theorem scanTop_head_false (f : ℕ → Bool) (n : ℕ) (h : f 0 = false) :
    scanTop f n = 0 := by
  match n with
  | 0 => rfl
  | (m + 1) => simp [scanTop, topLoop, h]

theorem bottomLoop_of_check (f : ℕ → Bool) (n lo m : ℕ) (hlo : lo < m) (hm : m ≤ n - 1)
    (hhi : ∀ r, m < r → r ≤ n - 1 → f r = true) (hmf : f m = false) :
    ∀ fuel pos, m ≤ pos → pos ≤ n - 1 → pos - m < fuel → bottomLoop f n lo fuel pos = m := by
  intro fuel
  induction fuel with
  | zero => intro pos hp hpn hlt; omega
  | succ fm ih =>
    intro pos hp hpn hlt
    by_cases hpm : pos = m
    · subst hpm
      simp [bottomLoop, hmf]
    · have hpm' : m < pos := lt_of_le_of_ne hp fun hx => hpm hx.symm
      rw [bottomLoop, if_pos ⟨by omega, hhi pos hpm' hpn⟩, if_neg (by omega)]
      exact ih (pos - 1) (by omega) (by omega) (by omega)

theorem scanBottom_eq (f : ℕ → Bool) (n lo m : ℕ) (hlo : lo < m) (hm : m ≤ n - 1)
    (hhi : ∀ r, m < r → r ≤ n - 1 → f r = true) (hmf : f m = false) :
    scanBottom f n lo = m :=
  bottomLoop_of_check f n lo m hlo hm hhi hmf n (n - 1) hm (Nat.le_refl _) (by omega)

theorem bottomLoop_all (f : ℕ → Bool) (n lo : ℕ) (hall : ∀ r < n, f r = true) :
    ∀ fuel pos, lo < pos → pos ≤ n - 1 → pos - lo ≤ fuel → bottomLoop f n lo fuel pos = n - 1 := by
  intro fuel
  induction fuel with
  | zero => intro pos hp hpn hle; omega
  | succ m ih =>
    intro pos hp hpn hle
    rw [bottomLoop, if_pos ⟨hp, hall pos (by omega)⟩]
    by_cases hend : pos - 1 ≤ lo
    · rw [if_pos hend]
    · rw [if_neg hend]
      exact ih (pos - 1) (by omega) (by omega) (by omega)

theorem scanBottom_all_eq (f : ℕ → Bool) (n lo : ℕ) (hall : ∀ r < n, f r = true) :
    scanBottom f n lo = n - 1 := by
  by_cases h : n - 1 ≤ lo
  · match n with
    | 0 => rfl
    | (m + 1) =>
      rw [scanBottom, bottomLoop, if_neg (by omega)]
  · exact bottomLoop_all f n lo hall n (n - 1) (by omega) (Nat.le_refl _) (by omega)

theorem scanBottom_last_false (f : ℕ → Bool) (n lo : ℕ) (h : f (n - 1) = false) :
    scanBottom f n lo = n - 1 := by
  match n with
  | 0 => rfl
  | (m + 1) =>
    rw [scanBottom, bottomLoop]
    exact if_neg fun hcon => (Bool.eq_false_iff.mp h) hcon.2

/-! ### Characterizations of the row/column checks -/

theorem check_row_iff (img : Tensor) (r : ℕ) (t target : ℚ) :
    _check_row img r t target = true ↔
      ∀ c < dim img 0, ∀ w < dim img 2, |at3 img c r w - target| < t := by
  simp [_check_row, List.all_eq_true, List.mem_range]

theorem check_row_false (img : Tensor) (r : ℕ) (t target : ℚ) {c w : ℕ}
    (hc : c < dim img 0) (hw : w < dim img 2)
    (h : ¬ |at3 img c r w - target| < t) : _check_row img r t target = false := by
  rw [Bool.eq_false_iff]
  intro htrue
  exact h ((check_row_iff img r t target).mp htrue c hc w hw)

theorem check_col_iff (img : Tensor) (col : ℕ) (t target : ℚ) :
    _check_col img col t target = true ↔
      ∀ c < dim img 0, ∀ h < dim img 1, |at3 img c h col - target| < t := by
  simp [_check_col, List.all_eq_true, List.mem_range]

theorem check_col_false (img : Tensor) (col : ℕ) (t target : ℚ) {c h : ℕ}
    (hc : c < dim img 0) (hh : h < dim img 1)
    (hne : ¬ |at3 img c h col - target| < t) : _check_col img col t target = false := by
  rw [Bool.eq_false_iff]
  intro htrue
  exact hne ((check_col_iff img col t target).mp htrue c hc h hh)

/-! ### Mid-level facts about `_detect_borders` and `crop_border` -/

theorem detect_uniform (H W : ℕ) (v t : ℚ) (hH : 1 ≤ H) (hW : 1 ≤ W) :
    _detect_borders ⟨[3, H, W], List.replicate (3 * H * W) v⟩ t = (0, 0, H, W) := by
  have hd0 : dim ⟨[3, H, W], List.replicate (3 * H * W) v⟩ 0 = 3 := rfl
  have hd1 : dim ⟨[3, H, W], List.replicate (3 * H * W) v⟩ 1 = H := rfl
  have hd2 : dim ⟨[3, H, W], List.replicate (3 * H * W) v⟩ 2 = W := rfl
  have hat : ∀ c < 3, ∀ h < H, ∀ w < W,
      at3 ⟨[3, H, W], List.replicate (3 * H * W) v⟩ c h w = v := by
    intro c hc h hh w hw
    show (List.replicate (3 * H * W) v).getD ((c * H + h) * W + w) 0 = v
    exact getD_replicate v (encode3_lt hc hh hw)
  simp only [_detect_borders, hd1, hd2]
  set T : ℚ := if corner_mean ⟨[3, H, W], List.replicate (3 * H * W) v⟩ > 1/2 then 1 else 0 with hT
  by_cases hB : |v - T| < t
  · have hrow : ∀ r < H, _check_row ⟨[3, H, W], List.replicate (3 * H * W) v⟩ r t T = true := by
      intro r hr
      rw [check_row_iff]
      intro c hc w hw
      rw [hd0] at hc
      rw [hd2] at hw
      rw [hat c hc r hr w hw]
      exact hB
    have hcol : ∀ cc < W, _check_col ⟨[3, H, W], List.replicate (3 * H * W) v⟩ cc t T = true := by
      intro cc hcc
      rw [check_col_iff]
      intro c hc h hh
      rw [hd0] at hc
      rw [hd1] at hh
      rw [hat c hc h hh cc hcc]
      exact hB
    rw [scanTop_all_eq _ _ hrow, scanBottom_all_eq _ _ _ hrow,
      scanTop_all_eq _ _ hcol, scanBottom_all_eq _ _ _ hcol]
    rw [if_pos (by omega)]
  · have hc3 : (0 : ℕ) < dim ⟨[3, H, W], List.replicate (3 * H * W) v⟩ 0 := by rw [hd0]; omega
    have hrow : ∀ r < H, _check_row ⟨[3, H, W], List.replicate (3 * H * W) v⟩ r t T = false := by
      intro r hr
      refine @check_row_false _ r t T 0 0 hc3 (by rw [hd2]; omega) ?_
      rw [hat 0 (by omega) r hr 0 (by omega)]
      exact hB
    have hcol : ∀ cc < W, _check_col ⟨[3, H, W], List.replicate (3 * H * W) v⟩ cc t T = false := by
      intro cc hcc
      refine @check_col_false _ cc t T 0 0 hc3 (by rw [hd1]; omega) ?_
      rw [hat 0 (by omega) 0 (by omega) cc hcc]
      exact hB
    rw [scanTop_head_false _ _ (hrow 0 (by omega)),
      scanBottom_last_false _ _ _ (hrow (H - 1) (by omega)),
      scanTop_head_false _ _ (hcol 0 (by omega)),
      scanBottom_last_false _ _ _ (hcol (W - 1) (by omega))]
    rw [if_pos (by omega)]

theorem restore_hwc_chw (img2 : Tensor) {H W : ℕ} (hs : img2.shape = [3, H, W]) :
    restore_hwc img2 = permute120 img2 := by
  rw [restore_hwc, if_pos]
  rw [hs]
  exact ⟨rfl, rfl⟩

/-- `crop_border` on a well-formed channel-last `[H, W, 3]` image: the body
never raises, and the result is governed by `_detect_borders` on the
canonicalized channel-first tensor. -/
theorem crop_border_hwc (H W : ℕ) (img : Tensor) (t : ℚ)
    (hs : img.shape = [H, W, 3]) (hH : 1 ≤ H) (hW : 1 ≤ W) :
    crop_border img t =
      (match _detect_borders (permute201 img) t with
       | (top, left, bottom, right) =>
         if top = 0 ∧ left = 0 ∧ bottom = H ∧ right = W then
           unsqueeze (restore_hwc (permute201 img))
         else if bottom - top < 10 ∨ right - left < 10 then
           unsqueeze (restore_hwc (permute201 img))
         else
           unsqueeze (restore_hwc (slice3 (permute201 img) top bottom left right))) := by
  have hlast : img.shape.getLastD 0 = 3 := by rw [hs]; rfl
  have hlen3 : img.shape.length = 3 := by rw [hs]; rfl
  have hps : (permute201 img).shape = [3, H, W] := shape_permute201 hs
  have hbody : crop_border_body img t =
      .ok (match _detect_borders (permute201 img) t with
       | (top, left, bottom, right) =>
         if top = 0 ∧ left = 0 ∧ bottom = H ∧ right = W then
           unsqueeze (restore_hwc (permute201 img))
         else if bottom - top < 10 ∨ right - left < 10 then
           unsqueeze (restore_hwc (permute201 img))
         else
           unsqueeze (restore_hwc (slice3 (permute201 img) top bottom left right))) := by
    rw [crop_border_body, if_neg (by rw [hlen3]; omega), crop_border_rest,
      if_neg (by rw [hlen3]; simp)]
    simp only [hlast, if_true, if_pos]
    rw [if_neg (by rw [hps]; simp), if_neg (by rw [hps]; simp [Nat.mul_eq_zero]; omega)]
    have hq1 : dim (permute201 img) 1 = H := by rw [dim, hps]; rfl
    have hq2 : dim (permute201 img) 2 = W := by rw [dim, hps]; rfl
    rw [hq1, hq2]
    split_ifs <;> rfl
  rw [crop_border, hbody]

/-- Whenever the detection outcome is the full-image sentinel or a
sub-floor rectangle, `crop_border` hands back the input unchanged
(batch axis added, layout restored). -/
theorem crop_border_eq_unchanged (H W : ℕ) (img : Tensor) (t : ℚ)
    (hs : img.shape = [H, W, 3]) (hlen : img.data.length = H * W * 3)
    (hH : 1 ≤ H) (hW : 1 ≤ W) (top left bottom right : ℕ)
    (hdet : _detect_borders (permute201 img) t = (top, left, bottom, right))
    (hbranch : (top = 0 ∧ left = 0 ∧ bottom = H ∧ right = W) ∨
      bottom - top < 10 ∨ right - left < 10) :
    crop_border img t = unsqueeze img := by
  have hres : restore_hwc (permute201 img) = img := by
    rw [restore_hwc_chw _ (shape_permute201 hs)]
    exact permute_roundtrip hs hlen
  rw [crop_border_hwc H W img t hs hH hW, hdet]
  simp only [hres]
  split_ifs with h1 h2
  · rfl
  · rfl
  · rcases hbranch with hP | hQ
    · exact absurd hP h1
    · exact absurd hQ h2

/-- An input whose rank is neither 3 nor 4 makes the `try` block raise before
any reassignment of `image`; the handler then returns the supplied buffer with
a prepended batch axis. -/
theorem body_error_of_bad_rank (img : Tensor) (t : ℚ)
    (h3 : img.shape.length ≠ 3) (h4 : img.shape.length ≠ 4) :
    crop_border_body img t = Except.error img ∧ crop_border img t = unsqueeze img := by
  have hbody : crop_border_body img t = Except.error img := by
    rw [crop_border_body, if_neg h4]
    simp only [crop_border_rest]
    by_cases hl : img.shape.getLastD 0 = 3
    · rw [if_pos ⟨hl, h3⟩]
    · rw [if_neg (fun hcon => hl hcon.1), if_neg hl, if_pos h3]
  refine ⟨hbody, ?_⟩
  rw [crop_border, hbody]
  exact if_neg h4

/-! ### Corner-patch mean bounds -/

theorem corner_mean_gt_half (img : Tensor) (hC : dim img 0 = 3)
    (hH : 10 ≤ dim img 1) (hW : 10 ≤ dim img 2) (g : ℕ → ℕ → ℕ → ℚ)
    (hle : ∀ c < 3, ∀ h < 10, ∀ w < 10, g c h w ≤ at3 img c h w)
    (hsum : 150 < ((List.range 3).map fun c =>
      (((List.range 10).map fun h =>
        (((List.range 10).map fun w => g c h w).sum)).sum)).sum) :
    corner_mean img > 1/2 := by
  have hmH : min 10 (dim img 1) = 10 := min_eq_left hH
  have hmW : min 10 (dim img 2) = 10 := min_eq_left hW
  simp only [corner_mean, hC, hmH, hmW]
  rw [if_neg (by norm_num)]
  have hS : ((List.range 3).map fun c =>
        (((List.range 10).map fun h =>
          (((List.range 10).map fun w => g c h w).sum)).sum)).sum ≤
      ((List.range 3).map fun c =>
        (((List.range 10).map fun h =>
          (((List.range 10).map fun w => at3 img c h w).sum)).sum)).sum := by
    apply List.sum_le_sum
    intro c hc
    apply List.sum_le_sum
    intro h hh
    apply List.sum_le_sum
    intro w hw
    exact hle c (List.mem_range.mp hc) h (List.mem_range.mp hh) w (List.mem_range.mp hw)
  rw [gt_iff_lt, lt_div_iff (by norm_num)]
  push_cast
  linarith

/-! ### The canonical white-frame family: 5-pixel exact-white frame around a
non-white interior (every interior row and column has an out-of-tolerance
sample), on images of at least 21×21 pixels. -/

theorem detect_white_frame (H W : ℕ) (img : Tensor) (t : ℚ)
    (hs : img.shape = [H, W, 3]) (hH : 21 ≤ H) (hW : 21 ≤ W) (ht : 0 < t)
    (hframe : ∀ h < H, ∀ w < W, ∀ c < 3,
      (h < 5 ∨ H - 5 ≤ h ∨ w < 5 ∨ W - 5 ≤ w) → atHWC img h w c = 1)
    (hpos : ∀ h < H, ∀ w < W, ∀ c < 3, 0 ≤ atHWC img h w c)
    (hrow : ∀ h, 5 ≤ h → h < H - 5 →
      ∃ w, 5 ≤ w ∧ w < W - 5 ∧ ∃ c < 3, t ≤ |atHWC img h w c - 1|)
    (hcol : ∀ w, 5 ≤ w → w < W - 5 →
      ∃ h, 5 ≤ h ∧ h < H - 5 ∧ ∃ c < 3, t ≤ |atHWC img h w c - 1|) :
    _detect_borders (permute201 img) t = (5, 5, H - 6, W - 6) := by
  set u := permute201 img with hu
  have hps : u.shape = [3, H, W] := shape_permute201 hs
  have hd0 : dim u 0 = 3 := by rw [dim, hps]; rfl
  have hd1 : dim u 1 = H := by rw [dim, hps]; rfl
  have hd2 : dim u 2 = W := by rw [dim, hps]; rfl
  have hat : ∀ c < 3, ∀ h < H, ∀ w < W, at3 u c h w = atHWC img h w c := by
    intro c hc h hh w hw
    exact at3_permute201 hs hc hh hw
  have hcor : corner_mean u > 1/2 := by
    apply corner_mean_gt_half u hd0 (by omega) (by omega)
      (fun c h w => if h < 5 ∨ w < 5 then (1 : ℚ) else 0)
    · intro c hc h hh w hw
      by_cases hfr : h < 5 ∨ w < 5
      · rw [if_pos hfr, hat c hc h (by omega) w (by omega),
          hframe h (by omega) w (by omega) c hc (by omega)]
      · rw [if_neg hfr, hat c hc h (by omega) w (by omega)]
        exact hpos h (by omega) w (by omega) c hc
    · norm_num [List.range_succ]
  have htarget : (if corner_mean u > 1/2 then (1 : ℚ) else 0) = 1 := if_pos hcor
  have hrow_frame : ∀ r < H, (r < 5 ∨ H - 5 ≤ r) → _check_row u r t 1 = true := by
    intro r hr hfr
    rw [check_row_iff]
    intro c hc w hw
    rw [hd0] at hc
    rw [hd2] at hw
    rw [hat c hc r hr w hw, hframe r hr w hw c hc (by omega)]
    simpa using ht
  have hrow_fail : ∀ r, 5 ≤ r → r < H - 5 → _check_row u r t 1 = false := by
    intro r h5 hr5
    obtain ⟨w, hw5, hwW, c, hc, hge⟩ := hrow r h5 hr5
    refine @check_row_false u r t 1 c w (by rw [hd0]; omega) (by rw [hd2]; omega) ?_
    rw [hat c hc r (by omega) w (by omega)]
    exact not_lt.mpr hge
  have hcol_frame : ∀ cc < W, (cc < 5 ∨ W - 5 ≤ cc) → _check_col u cc t 1 = true := by
    intro cc hcw hfr
    rw [check_col_iff]
    intro c hc h hh
    rw [hd0] at hc
    rw [hd1] at hh
    rw [hat c hc h hh cc hcw, hframe h hh cc hcw c hc (by omega)]
    simpa using ht
  have hcol_fail : ∀ cc, 5 ≤ cc → cc < W - 5 → _check_col u cc t 1 = false := by
    intro cc h5 hc5
    obtain ⟨h, hh5, hhH, c, hc, hge⟩ := hcol cc h5 hc5
    refine @check_col_false u cc t 1 c h (by rw [hd0]; omega) (by rw [hd1]; omega) ?_
    rw [hat c hc h (by omega) cc (by omega)]
    exact not_lt.mpr hge
  have htop : scanTop (fun r => _check_row u r t 1) H = 5 :=
    scanTop_eq _ H 5 (by omega)
      (fun r hr => hrow_frame r (by omega) (Or.inl hr))
      (hrow_fail 5 (by omega) (by omega))
  have hbot : scanBottom (fun r => _check_row u r t 1) H 5 = H - 6 :=
    scanBottom_eq _ H 5 (H - 6) (by omega) (by omega)
      (fun r hr1 hr2 => hrow_frame r (by omega) (Or.inr (by omega)))
      (hrow_fail (H - 6) (by omega) (by omega))
  have hleft : scanTop (fun cc => _check_col u cc t 1) W = 5 :=
    scanTop_eq _ W 5 (by omega)
      (fun cc hcc => hcol_frame cc (by omega) (Or.inl hcc))
      (hcol_fail 5 (by omega) (by omega))
  have hright : scanBottom (fun cc => _check_col u cc t 1) W 5 = W - 6 :=
    scanBottom_eq _ W 5 (W - 6) (by omega) (by omega)
      (fun cc h1 h2 => hcol_frame cc (by omega) (Or.inr (by omega)))
      (hcol_fail (W - 6) (by omega) (by omega))
  simp only [_detect_borders, hd1, hd2, htarget]
  rw [htop, hbot, hleft, hright]
  rw [if_neg (by omega)]

theorem crop_white_frame (H W : ℕ) (img : Tensor) (t : ℚ)
    (hs : img.shape = [H, W, 3]) (hH : 21 ≤ H) (hW : 21 ≤ W) (ht : 0 < t)
    (hframe : ∀ h < H, ∀ w < W, ∀ c < 3,
      (h < 5 ∨ H - 5 ≤ h ∨ w < 5 ∨ W - 5 ≤ w) → atHWC img h w c = 1)
    (hpos : ∀ h < H, ∀ w < W, ∀ c < 3, 0 ≤ atHWC img h w c)
    (hrow : ∀ h, 5 ≤ h → h < H - 5 →
      ∃ w, 5 ≤ w ∧ w < W - 5 ∧ ∃ c < 3, t ≤ |atHWC img h w c - 1|)
    (hcol : ∀ w, 5 ≤ w → w < W - 5 →
      ∃ h, 5 ≤ h ∧ h < H - 5 ∧ ∃ c < 3, t ≤ |atHWC img h w c - 1|) :
    crop_border img t = unsqueeze ⟨[H - 11, W - 11, 3],
      ofFn3 (H - 11) (W - 11) 3 fun i j c => atHWC img (5 + i) (5 + j) c⟩ := by
  have hdet := detect_white_frame H W img t hs hH hW ht hframe hpos hrow hcol
  have hq0 : dim (permute201 img) 0 = 3 := by rw [dim, shape_permute201 hs]; rfl
  have hq1 : dim (permute201 img) 1 = H := by rw [dim, shape_permute201 hs]; rfl
  have hq2 : dim (permute201 img) 2 = W := by rw [dim, shape_permute201 hs]; rfl
  have hsl : slice3 (permute201 img) 5 (H - 6) 5 (W - 6) =
      ⟨[3, H - 11, W - 11], ofFn3 3 (H - 11) (W - 11) fun c i j =>
        atHWC img (5 + i) (5 + j) c⟩ := by
    rw [slice3]
    simp only [hq0, hq1, hq2]
    have e1 : H - 6 - 5 = H - 11 := by omega
    have e2 : W - 6 - 5 = W - 11 := by omega
    rw [e1, e2]
    congr 1
    apply ofFn3_congr
    intro c hc i hi j hj
    have hstep : (permute201 img).data.getD ((c * H + (5 + i)) * W + (5 + j)) 0 =
        at3 (permute201 img) c (5 + i) (5 + j) := by
      rw [at3, hq1, hq2]
    rw [hstep, at3_permute201 hs hc (by omega) (by omega)]
  have hperm : permute120 (⟨[3, H - 11, W - 11],
      ofFn3 3 (H - 11) (W - 11) fun c i j => atHWC img (5 + i) (5 + j) c⟩ : Tensor) =
      ⟨[H - 11, W - 11, 3], ofFn3 (H - 11) (W - 11) 3 fun i j c =>
        atHWC img (5 + i) (5 + j) c⟩ := by
    rw [permute120]
    simp only [dim_mk, List.getD_cons_zero, List.getD_cons_succ]
    congr 1
    apply ofFn3_congr
    intro i hi j hj c hc
    rw [getD_ofFn3 _ hc hi hj]
  have hres : restore_hwc (slice3 (permute201 img) 5 (H - 6) 5 (W - 6)) =
      ⟨[H - 11, W - 11, 3], ofFn3 (H - 11) (W - 11) 3 fun i j c =>
        atHWC img (5 + i) (5 + j) c⟩ := by
    rw [hsl, restore_hwc_chw _ rfl, hperm]
  rw [crop_border_hwc H W img t hs (by omega) (by omega), hdet]
  show (if (5 : ℕ) = 0 ∧ (5 : ℕ) = 0 ∧ H - 6 = H ∧ W - 6 = W then
      unsqueeze (restore_hwc (permute201 img))
    else if H - 6 - 5 < 10 ∨ W - 6 - 5 < 10 then
      unsqueeze (restore_hwc (permute201 img))
    else unsqueeze (restore_hwc (slice3 (permute201 img) 5 (H - 6) 5 (W - 6)))) = _
  rw [if_neg (by omega), if_neg (by omega), hres]

/-! ### Concrete-image facts -/

theorem atHWC_mkHWC (H W : ℕ) (f : ℕ → ℕ → ℕ → ℚ) {h w c : ℕ}
    (hh : h < H) (hw : w < W) (hc : c < 3) :
    atHWC (mkHWC H W f) h w c = f h w c := by
  show (ofFn3 H W 3 f).getD ((h * W + w) * 3 + c) 0 = f h w c
  exact getD_ofFn3 f hh hw hc

theorem frame21_frame : ∀ h < 21, ∀ w < 21, ∀ c < 3,
    (h < 5 ∨ 21 - 5 ≤ h ∨ w < 5 ∨ 21 - 5 ≤ w) → atHWC frame21 h w c = 1 := by
  intro h hh w hw c hc hdisj
  rw [frame21, atHWC_mkHWC 21 21 _ hh hw hc, if_pos (by omega)]

theorem frame21_pos : ∀ h < 21, ∀ w < 21, ∀ c < 3, 0 ≤ atHWC frame21 h w c := by
  intro h hh w hw c hc
  rw [frame21, atHWC_mkHWC 21 21 _ hh hw hc]
  split <;> norm_num

theorem frame21_row : ∀ h, 5 ≤ h → h < 21 - 5 →
    ∃ w, 5 ≤ w ∧ w < 21 - 5 ∧ ∃ c < 3, (1 : ℚ)/50 ≤ |atHWC frame21 h w c - 1| := by
  intro h h5 h16
  refine ⟨5, by omega, by omega, 0, by omega, ?_⟩
  rw [frame21, atHWC_mkHWC 21 21 _ (by omega) (by omega) (by omega), if_neg (by omega)]
  norm_num

theorem frame21_col : ∀ w, 5 ≤ w → w < 21 - 5 →
    ∃ h, 5 ≤ h ∧ h < 21 - 5 ∧ ∃ c < 3, (1 : ℚ)/50 ≤ |atHWC frame21 h w c - 1| := by
  intro w w5 w16
  refine ⟨5, by omega, by omega, 0, by omega, ?_⟩
  rw [frame21, atHWC_mkHWC 21 21 _ (by omega) (by omega) (by omega), if_neg (by omega)]
  norm_num

/-- What the code actually computes on the 21×21 white-frame image: the
detected rectangle is `(5, 5, 15, 15)` — bottom and right are the first
non-border row/column met by the inward scans, and the half-open crop
`[5:15, 5:15]` will exclude them. -/
theorem frame21_detect : _detect_borders (permute201 frame21) (1/50) = (5, 5, 15, 15) := by
  have h := detect_white_frame 21 21 frame21 (1/50) rfl (by norm_num) (by norm_num)
    (by norm_num) frame21_frame frame21_pos frame21_row frame21_col
  norm_num at h
  exact h

theorem frame21x255_at : ∀ h < 21, ∀ w < 21, ∀ c < 3,
    (h < 5 ∨ 16 ≤ h ∨ w < 5 ∨ 16 ≤ w) → atHWC frame21x255 h w c = 255 := by
  intro h hh w hw c hc hdisj
  rw [frame21x255, atHWC_mkHWC 21 21 _ hh hw hc, if_pos (by omega)]

/-- On the [0,255]-scaled copy no row or column is ever within the 0.02
tolerance of either target, so every scan stops at once and validation
falls back to the full-image sentinel. -/
theorem frame21x255_detect :
    _detect_borders (permute201 frame21x255) (1/50) = (0, 0, 21, 21) := by
  set u := permute201 frame21x255 with hu
  have hps : u.shape = [3, 21, 21] := shape_permute201 rfl
  have hd0 : dim u 0 = 3 := by rw [dim, hps]; rfl
  have hd1 : dim u 1 = 21 := by rw [dim, hps]; rfl
  have hd2 : dim u 2 = 21 := by rw [dim, hps]; rfl
  simp only [_detect_borders, hd1, hd2]
  set T : ℚ := if corner_mean u > 1/2 then 1 else 0 with hT
  have hTcases : T = 1 ∨ T = 0 := by
    rw [hT]
    split
    · left; rfl
    · right; rfl
  have hTfar : ¬ |(255 : ℚ) - T| < 1/50 := by
    rcases hTcases with h1 | h0
    · rw [h1]; norm_num
    · rw [h0]; norm_num
  have hrowfail : ∀ r < 21, _check_row u r (1/50) T = false := by
    intro r hr
    refine @check_row_false u r (1/50) T 0 0 (by rw [hd0]; omega) (by rw [hd2]; omega) ?_
    rw [at3_permute201 rfl (by omega) hr (by omega),
      frame21x255_at r hr 0 (by omega) 0 (by omega) (by omega)]
    exact hTfar
  have hcolfail : ∀ cc < 21, _check_col u cc (1/50) T = false := by
    intro cc hcc
    refine @check_col_false u cc (1/50) T 0 0 (by rw [hd0]; omega) (by rw [hd1]; omega) ?_
    rw [at3_permute201 rfl (by omega) (by omega) hcc,
      frame21x255_at 0 (by omega) cc hcc 0 (by omega) (by omega)]
    exact hTfar
  rw [scanTop_head_false _ _ (hrowfail 0 (by omega)),
    scanBottom_last_false _ _ _ (hrowfail (21 - 1) (by omega)),
    scanTop_head_false _ _ (hcolfail 0 (by omega)),
    scanBottom_last_false _ _ _ (hcolfail (21 - 1) (by omega))]
  rw [if_pos (by omega)]

/-- `crop_border` on a channel-first input whose trailing axis is not 3:
no input permute happens and the body is again governed by detection. -/
theorem crop_border_chw (C H W : ℕ) (img : Tensor) (t : ℚ)
    (hs : img.shape = [C, H, W]) (hW3 : W ≠ 3) (hprod : C * H * W ≠ 0) :
    crop_border img t =
      (match _detect_borders img t with
       | (top, left, bottom, right) =>
         if top = 0 ∧ left = 0 ∧ bottom = H ∧ right = W then
           unsqueeze (restore_hwc img)
         else if bottom - top < 10 ∨ right - left < 10 then
           unsqueeze (restore_hwc img)
         else
           unsqueeze (restore_hwc (slice3 img top bottom left right))) := by
  have hlast : img.shape.getLastD 0 = W := by rw [hs]; rfl
  have hlen3 : img.shape.length = 3 := by rw [hs]; rfl
  have hbody : crop_border_body img t =
      .ok (match _detect_borders img t with
       | (top, left, bottom, right) =>
         if top = 0 ∧ left = 0 ∧ bottom = H ∧ right = W then
           unsqueeze (restore_hwc img)
         else if bottom - top < 10 ∨ right - left < 10 then
           unsqueeze (restore_hwc img)
         else
           unsqueeze (restore_hwc (slice3 img top bottom left right))) := by
    have hcond2 : ¬ (img.shape.getLastD 0 = 3) := by rw [hlast]; exact hW3
    have hcond1 : ¬ (img.shape.getLastD 0 = 3 ∧ ¬ img.shape.length = 3) :=
      fun hcon => hcon.2 hlen3
    have hcond3 : ¬ ¬ img.shape.length = 3 := not_not_intro hlen3
    have hcond4 : ¬ (img.shape.prod = 0) := by
      have h1 := Nat.mul_ne_zero_iff.mp hprod
      have h2 := Nat.mul_ne_zero_iff.mp h1.1
      rw [hs]
      simp [Nat.mul_eq_zero]
      omega
    have hq1 : dim img 1 = H := by rw [dim, hs]; rfl
    have hq2 : dim img 2 = W := by rw [dim, hs]; rfl
    rw [crop_border_body, if_neg (by rw [hlen3]; omega)]
    simp only [crop_border_rest, if_neg hcond1, if_neg hcond2, if_neg hcond3,
      if_neg hcond4, hq1, hq2]
    split_ifs <;> rfl
  rw [crop_border, hbody]

/-- Every error the post-squeeze part of the body can raise on a rank-3 entry
carries a rank-3 tensor. -/
theorem rest_error_rank (image : Tensor) (t : ℚ) (h3 : image.shape.length = 3)
    {e : Tensor} (h : crop_border_rest image t = Except.error e) : e.shape.length = 3 := by
  simp only [crop_border_rest] at h
  by_cases hl : image.shape.getLastD 0 = 3
  · rw [if_neg (fun hcon => hcon.2 h3), if_pos hl] at h
    have hp3 : (permute201 image).shape.length = 3 := rfl
    rw [if_neg (not_not_intro hp3)] at h
    split_ifs at h
    all_goals simp at h
    all_goals rw [← h]
    all_goals exact hp3
  · rw [if_neg (fun hcon => hl hcon.1), if_neg hl, if_neg (not_not_intro h3)] at h
    split_ifs at h
    all_goals simp at h
    all_goals rw [← h]
    all_goals exact h3

/-- Every successful result of the post-squeeze part of the body is an
`unsqueeze` of something (the returned buffer always gets the batch axis). -/
theorem rest_ok_unsqueeze (image : Tensor) (t : ℚ) {out : Tensor}
    (h : crop_border_rest image t = Except.ok out) : ∃ y, out = unsqueeze y := by
  simp only [crop_border_rest] at h
  by_cases hl : image.shape.getLastD 0 = 3
  · by_cases hlen : image.shape.length = 3
    · rw [if_neg (fun hcon => hcon.2 hlen), if_pos hl] at h
      have hp3 : (permute201 image).shape.length = 3 := rfl
      rw [if_neg (not_not_intro hp3)] at h
      split_ifs at h
      all_goals simp at h
      all_goals exact ⟨_, h.symm⟩
    · rw [if_pos ⟨hl, hlen⟩] at h
      simp at h
  · by_cases hlen : image.shape.length = 3
    · rw [if_neg (fun hcon => hl hcon.1), if_neg hl, if_neg (not_not_intro hlen)] at h
      split_ifs at h
      all_goals simp at h
      all_goals exact ⟨_, h.symm⟩
    · rw [if_neg (fun hcon => hl hcon.1), if_neg hl, if_pos hlen] at h
      simp at h

/-- What the code computes on `hi12`: the scans leave the 1-pixel-high
rectangle `(10, 0, 11, 11)`, which the minimum-size guard will discard. -/
theorem hi12_detect : _detect_borders (permute201 hi12) (1/50) = (10, 0, 11, 11) := by
  set u := permute201 hi12 with hu
  have hps : u.shape = [3, 12, 12] := shape_permute201 rfl
  have hd0 : dim u 0 = 3 := by rw [dim, hps]; rfl
  have hd1 : dim u 1 = 12 := by rw [dim, hps]; rfl
  have hd2 : dim u 2 = 12 := by rw [dim, hps]; rfl
  have hat : ∀ c < 3, ∀ h < 12, ∀ w < 12,
      at3 u c h w = (if h < 10 then (1 : ℚ) else 1/2) := by
    intro c hc h hh w hw
    rw [at3_permute201 rfl hc hh hw, hi12, atHWC_mkHWC 12 12 _ hh hw hc]
  have hcor : corner_mean u > 1/2 := by
    apply corner_mean_gt_half u hd0 (by omega) (by omega) (fun _ _ _ => (1 : ℚ))
    · intro c hc h hh w hw
      rw [hat c hc h (by omega) w (by omega), if_pos (by omega)]
    · norm_num [List.range_succ]
  have htarget : (if corner_mean u > 1/2 then (1 : ℚ) else 0) = 1 := if_pos hcor
  have hrow_true : ∀ r < 10, _check_row u r (1/50) 1 = true := by
    intro r hr
    rw [check_row_iff]
    intro c hc w hw
    rw [hd0] at hc
    rw [hd2] at hw
    rw [hat c hc r (by omega) w hw, if_pos hr]
    norm_num
  have hrow_false : ∀ r, 10 ≤ r → r < 12 → _check_row u r (1/50) 1 = false := by
    intro r h10 h12
    refine @check_row_false u r (1/50) 1 0 0 (by rw [hd0]; omega) (by rw [hd2]; omega) ?_
    rw [hat 0 (by omega) r h12 0 (by omega), if_neg (by omega),
      abs_sub_comm, abs_of_pos (show (0:ℚ) < 1 - 1/2 by norm_num)]
    norm_num
  have hcol_false : ∀ cc < 12, _check_col u cc (1/50) 1 = false := by
    intro cc hcc
    refine @check_col_false u cc (1/50) 1 0 10 (by rw [hd0]; omega) (by rw [hd1]; omega) ?_
    rw [hat 0 (by omega) 10 (by omega) cc hcc, if_neg (by omega),
      abs_sub_comm, abs_of_pos (show (0:ℚ) < 1 - 1/2 by norm_num)]
    norm_num
  simp only [_detect_borders, hd1, hd2, htarget]
  rw [scanTop_eq _ 12 10 (by omega) (fun r hr => hrow_true r hr)
      (hrow_false 10 (by omega) (by omega)),
    scanBottom_last_false _ _ _ (hrow_false (12 - 1) (by omega) (by omega)),
    scanTop_head_false _ _ (hcol_false 0 (by omega)),
    scanBottom_last_false _ _ _ (hcol_false (12 - 1) (by omega))]
  rw [if_neg (by omega)]

/-! ### The claims -/

/-- Claim C1 (amended): for every synthetic image with a 5-pixel solid exactly-white
frame around a non-white interior (each interior row and column has a sample at
least `t` away from white), with positive tolerance and at least 21×21 pixels so
the floor guard passes, `crop_border` detects the rectangle
`(top 5, left 5, bottom H-6, right W-6)` — the detected bottom/right are the first
non-border row/column met scanning inward — and the half-open crop excludes them,
so the returned content is the interior minus its last row and last column. -/
theorem claim_C1_corrected (H W : ℕ) (img : Tensor) (t : ℚ)
    (hs : img.shape = [H, W, 3]) (hH : 21 ≤ H) (hW : 21 ≤ W) (ht : 0 < t)
    (hframe : ∀ h < H, ∀ w < W, ∀ c < 3,
      (h < 5 ∨ H - 5 ≤ h ∨ w < 5 ∨ W - 5 ≤ w) → atHWC img h w c = 1)
    (hpos : ∀ h < H, ∀ w < W, ∀ c < 3, 0 ≤ atHWC img h w c)
    (hrow : ∀ h, 5 ≤ h → h < H - 5 →
      ∃ w, 5 ≤ w ∧ w < W - 5 ∧ ∃ c < 3, t ≤ |atHWC img h w c - 1|)
    (hcol : ∀ w, 5 ≤ w → w < W - 5 →
      ∃ h, 5 ≤ h ∧ h < H - 5 ∧ ∃ c < 3, t ≤ |atHWC img h w c - 1|) :
    _detect_borders (permute201 img) t = (5, 5, H - 6, W - 6) ∧
    crop_border img t = unsqueeze ⟨[H - 11, W - 11, 3],
      ofFn3 (H - 11) (W - 11) 3 fun i j c => atHWC img (5 + i) (5 + j) c⟩ :=
  ⟨detect_white_frame H W img t hs hH hW ht hframe hpos hrow hcol,
   crop_white_frame H W img t hs hH hW ht hframe hpos hrow hcol⟩

/-- Claim C1 (counterexample): on the concrete 21×21 image with a 5-pixel solid
white frame and black interior, tolerance 0.02, the detected rectangle is not
the claimed `(5, 5, height-5, width-5) = (5, 5, 16, 16)`. -/
theorem claim_C1_counterexample :
    _detect_borders (permute201 frame21) (1/50) ≠ (5, 5, 16, 16) := by
  rw [frame21_detect]
  decide

/-- Claim C1 (witness): the amended statement at the concrete 21×21 instance. -/
theorem claim_C1_witness :
    _detect_borders (permute201 frame21) (1/50) = (5, 5, 15, 15) ∧
    crop_border frame21 (1/50) = unsqueeze ⟨[10, 10, 3],
      ofFn3 10 10 3 fun i j c => atHWC frame21 (5 + i) (5 + j) c⟩ := by
  have h := claim_C1_corrected 21 21 frame21 (1/50) rfl (by norm_num) (by norm_num)
    (by norm_num) frame21_frame frame21_pos frame21_row frame21_col
  norm_num at h
  exact h

/-- Claim C2 (amended): a 2-D or 5-D buffer does not surface a hard error:
the shape unpacking (or the permute) raises inside the `try`, the handler
catches it and silently returns the supplied buffer with a prepended batch
axis — a fallback pass-through. -/
theorem claim_C2_corrected (img : Tensor) (t : ℚ)
    (h : img.shape.length = 2 ∨ img.shape.length = 5) :
    crop_border_body img t = Except.error img ∧ crop_border img t = unsqueeze img := by
  rcases h with h | h
  · exact body_error_of_bad_rank img t (by omega) (by omega)
  · exact body_error_of_bad_rank img t (by omega) (by omega)

/-- Claim C2 (counterexample): a concrete 2-D buffer is passed through
unchanged (with a batch axis added) instead of raising: the internal
exception is swallowed by the handler. -/
theorem claim_C2_counterexample :
    crop_border_body twoD4 (1/50) = Except.error twoD4 ∧
    crop_border twoD4 (1/50) = unsqueeze twoD4 :=
  body_error_of_bad_rank twoD4 (1/50) (by decide) (by decide)

/-- Claim C2 (witness): the amended statement at a concrete 5-D buffer. -/
theorem claim_C2_witness :
    crop_border_body fiveD (1/50) = Except.error fiveD ∧
    crop_border fiveD (1/50) = unsqueeze fiveD :=
  claim_C2_corrected fiveD (1/50) (Or.inr (by decide))

/-- Claim C3 (amended): `crop_border` performs no rescaling of [0,255]-range
values; border detection uses the raw values, so it does not behave
identically on a [0,255]-scaled image and its [0,1] counterpart: the scaled
white-framed image yields the full-image sentinel and is returned unchanged,
while the normalized copy is detected and cropped. -/
theorem claim_C3_amended :
    _detect_borders (permute201 frame21x255) (1/50) = (0, 0, 21, 21) ∧
    crop_border frame21x255 (1/50) = unsqueeze frame21x255 ∧
    _detect_borders (permute201 frame21) (1/50) = (5, 5, 15, 15) := by
  refine ⟨frame21x255_detect, ?_, frame21_detect⟩
  exact crop_border_eq_unchanged 21 21 frame21x255 (1/50) rfl
    (by simp [frame21x255, mkHWC, length_ofFn3]) (by omega) (by omega)
    0 0 21 21 frame21x255_detect (Or.inl ⟨rfl, rfl, rfl, rfl⟩)

/-- Claim C3 (counterexample): border detection differs between the
[0,255]-scaled white-framed image and its [0,1]-normalized counterpart. -/
theorem claim_C3_counterexample :
    _detect_borders (permute201 frame21x255) (1/50) ≠
      _detect_borders (permute201 frame21) (1/50) := by
  rw [frame21x255_detect, frame21_detect]
  decide

/-- Claim C4 (amended): feeding the same logical image channel-first and
channel-last yields identical outputs (hence identical cropped content) —
because the channel-first copy, whose trailing axis is not 3, skips the input
permute and canonicalizes to the very same tensor; the output layout is
channel-last in both cases, so it does not match a channel-first input's layout. -/
theorem claim_C4_corrected (H W : ℕ) (img : Tensor) (t : ℚ)
    (hs : img.shape = [H, W, 3]) (hW3 : W ≠ 3) :
    crop_border (permute201 img) t = crop_border img t := by
  have hps : (permute201 img).shape = [3, H, W] := shape_permute201 hs
  have hlast : img.shape.getLastD 0 = 3 := by rw [hs]; rfl
  have hlen : img.shape.length = 3 := by rw [hs]; rfl
  have hplast : (permute201 img).shape.getLastD 0 = W := by rw [hps]; rfl
  have hplen : (permute201 img).shape.length = 3 := by rw [hps]; rfl
  have h1 : crop_border_body (permute201 img) t = crop_border_rest (permute201 img) t := by
    rw [crop_border_body, if_neg (by rw [hplen]; omega)]
  have h2 : crop_border_body img t = crop_border_rest img t := by
    rw [crop_border_body, if_neg (by rw [hlen]; omega)]
  have hpcond : ¬ (permute201 img).shape.getLastD 0 = 3 := by rw [hplast]; exact hW3
  have hc1L : ¬ ((permute201 img).shape.getLastD 0 = 3 ∧
      ¬ (permute201 img).shape.length = 3) := fun hcon => hpcond hcon.1
  have hc1R : ¬ (img.shape.getLastD 0 = 3 ∧ ¬ img.shape.length = 3) :=
    fun hcon => hcon.2 hlen
  have h3 : crop_border_rest (permute201 img) t = crop_border_rest img t := by
    simp only [crop_border_rest, if_neg hc1L, if_neg hc1R, if_neg hpcond, if_pos hlast]
  rw [crop_border, crop_border, h1, h2, h3]

/-- Claim C4 (counterexample): a channel-first `[3, 5, 7]` input comes back as
a channel-last `[1, 5, 7, 3]` buffer — the output layout does not match the
channel-first input layout `[1, 3, 5, 7]`. -/
theorem claim_C4_counterexample :
    (crop_border chw357 (1/50)).shape = [1, 5, 7, 3] ∧
      (1 :: chw357.shape) ≠ [1, 5, 7, 3] := by
  have hdet : _detect_borders chw357 (1/50) = (0, 0, 5, 7) :=
    detect_uniform 5 7 (1/5) (1/50) (by omega) (by omega)
  have hout : crop_border chw357 (1/50) =
      unsqueeze ⟨[5, 7, 3], List.replicate (5 * 7 * 3) (1/5)⟩ := by
    rw [crop_border_chw 3 5 7 chw357 (1/50) rfl (by omega) (by norm_num), hdet]
    show (if (0 : ℕ) = 0 ∧ (0 : ℕ) = 0 ∧ (5 : ℕ) = 5 ∧ (7 : ℕ) = 7 then
        unsqueeze (restore_hwc chw357)
      else if (5 : ℕ) - 0 < 10 ∨ (7 : ℕ) - 0 < 10 then
        unsqueeze (restore_hwc chw357)
      else unsqueeze (restore_hwc (slice3 chw357 0 5 0 7))) = _
    rw [if_pos ⟨rfl, rfl, rfl, rfl⟩, restore_hwc_chw _ rfl,
      show chw357 = (⟨[3, 5, 7], List.replicate (3 * 5 * 7) (1/5)⟩ : Tensor) from rfl,
      permute120_replicate 3 5 7 (1/5)]
  refine ⟨?_, by decide⟩
  rw [hout]
  rfl

/-- Claim C4 (witness): the amended layout equivalence at the concrete 12×12
image, channel-first vs channel-last. -/
theorem claim_C4_witness :
    crop_border (permute201 gray12) (1/50) = crop_border gray12 (1/50) :=
  claim_C4_corrected 12 12 gray12 (1/50) rfl (by omega)

/-- Claim C5: an entirely uniform solid-color image of any size and any
tolerance yields the full-image sentinel from detection (the scans either
reset after consuming the whole axis or never start), and `crop_border`
returns the image unchanged. -/
theorem claim_C5_confirmed (H W : ℕ) (v t : ℚ) (img : Tensor)
    (himg : img = ⟨[H, W, 3], List.replicate (H * W * 3) v⟩)
    (hH : 1 ≤ H) (hW : 1 ≤ W) :
    _detect_borders (permute201 img) t = (0, 0, H, W) ∧
    crop_border img t = unsqueeze img := by
  subst himg
  have hdet : _detect_borders
      (permute201 ⟨[H, W, 3], List.replicate (H * W * 3) v⟩) t = (0, 0, H, W) := by
    rw [show permute201 (⟨[H, W, 3], List.replicate (H * W * 3) v⟩ : Tensor) =
        ⟨[3, H, W], List.replicate (3 * H * W) v⟩ from permute201_replicate H W 3 v]
    exact detect_uniform H W v t hH hW
  refine ⟨hdet, ?_⟩
  exact crop_border_eq_unchanged H W _ t rfl (by simp) hH hW 0 0 H W hdet
    (Or.inl ⟨rfl, rfl, rfl, rfl⟩)

/-- Claim C5 (witness): the uniform-image behavior at a concrete 1×1 image. -/
theorem claim_C5_witness :
    _detect_borders (permute201 unif113) (1/50) = (0, 0, 1, 1) ∧
    crop_border unif113 (1/50) = unsqueeze unif113 :=
  claim_C5_confirmed 1 1 (1/5) (1/50) unif113 rfl (by omega) (by omega)

/-- Claim C6: whenever the detected crop rectangle is below the fixed 10-pixel
floor in height or width, `crop_border` discards the crop and returns the
original image unchanged. -/
theorem claim_C6_confirmed (H W : ℕ) (img : Tensor) (t : ℚ)
    (hs : img.shape = [H, W, 3]) (hlen : img.data.length = H * W * 3)
    (hH : 1 ≤ H) (hW : 1 ≤ W) (top left bottom right : ℕ)
    (hdet : _detect_borders (permute201 img) t = (top, left, bottom, right))
    (hsmall : bottom - top < 10 ∨ right - left < 10) :
    crop_border img t = unsqueeze img :=
  crop_border_eq_unchanged H W img t hs hlen hH hW top left bottom right hdet
    (Or.inr hsmall)

/-- Claim C6 (witness): the 12×12 image whose white rows leave a 1-pixel-high
rectangle (below the floor) comes back unchanged. -/
theorem claim_C6_witness : crop_border hi12 (1/50) = unsqueeze hi12 :=
  claim_C6_confirmed 12 12 hi12 (1/50) rfl (by simp [hi12, mkHWC, length_ofFn3])
    (by omega) (by omega) 10 0 11 11 hi12_detect (by omega)

/-- Claim C7 (amended): the per-pixel border classification takes no mean
across channels: a row (resp. column) is classified as border exactly when
every individual channel sample of the row (resp. column) lies strictly
within the tolerance of the target value. -/
theorem claim_C7_corrected (img : Tensor) (r col : ℕ) (t target : ℚ) :
    (_check_row img r t target = true ↔
      ∀ c < dim img 0, ∀ w < dim img 2, |at3 img c r w - target| < t) ∧
    (_check_col img col t target = true ↔
      ∀ c < dim img 0, ∀ h < dim img 1, |at3 img c h col - target| < t) :=
  ⟨check_row_iff img r t target, check_col_iff img col t target⟩

/-- Claim C7 (counterexample): a pixel with channels `(1, 1, 0.97)`, white
target and tolerance 0.02: its mean intensity 0.99 is within tolerance, so
the spec's mean-based rule calls the row border, but the code's per-channel
test rejects it. -/
theorem claim_C7_counterexample :
    _check_row pixel3 0 (1/50) 1 = false ∧
    spec_row_is_border pixel3 0 (1/50) 1 = true := by
  constructor
  · refine @check_row_false pixel3 0 (1/50) 1 2 0 (by norm_num [dim, pixel3])
      (by norm_num [dim, pixel3]) ?_
    rw [show at3 pixel3 2 0 0 = 97/100 from rfl]
    rw [abs_sub_comm, abs_of_pos (show (0:ℚ) < 1 - 97/100 by norm_num)]
    norm_num
  · have h0 : at3 pixel3 0 0 0 = 1 := rfl
    have h1 : at3 pixel3 1 0 0 = 1 := rfl
    have h2 : at3 pixel3 2 0 0 = 97/100 := rfl
    rw [spec_row_is_border]
    rw [show dim pixel3 2 = 1 from rfl]
    rw [show List.range 1 = [0] from rfl]
    simp only [List.all_cons, List.all_nil, Bool.and_true]
    rw [spec_pixel_is_border, show dim pixel3 0 = 3 from rfl]
    rw [show List.range 3 = [0, 1, 2] from by decide]
    simp only [List.map_cons, List.map_nil, List.sum_cons, List.sum_nil, h0, h1, h2]
    rw [decide_eq_true_eq, show ((3:ℕ):ℚ) = 3 from by norm_num, abs_sub_comm,
      abs_of_pos (show (0:ℚ) < 1 - (1 + (1 + (97/100 + 0))) / 3 by norm_num)]
    norm_num

/-- Claim C8 (amended): when the internal failure occurs before any
reassignment of the `image` variable — in particular for every buffer whose
rank is neither 3 nor 4, where the permute or the shape unpack raises — the
handler returns the supplied pixel content unchanged with a batch axis
prepended.  (When the failure occurs after the batch squeeze and permute, the
handler returns the already-transformed buffer instead, so layout and rank
need not match the supplied ones.) -/
theorem claim_C8_corrected (img : Tensor) (t : ℚ)
    (h3 : img.shape.length ≠ 3) (h4 : img.shape.length ≠ 4) :
    crop_border_body img t = Except.error img ∧ crop_border img t = unsqueeze img :=
  body_error_of_bad_rank img t h3 h4

/-- Claim C8 (counterexample): on the 4-D batch `[1, 0, 5, 3]` of an empty
image, the body batch-squeezes and permutes to `[3, 0, 5]` before `min()`
raises on the empty tensor; the handler then returns the transformed buffer
`[1, 3, 0, 5]` — not the supplied layout and batch form `[1, 0, 5, 3]`. -/
theorem claim_C8_counterexample :
    crop_border emptyBatch (1/50) = Tensor.mk [1, 3, 0, 5] [] ∧
    Tensor.mk [1, 3, 0, 5] [] ≠ emptyBatch := by
  constructor
  · rfl
  · decide

/-- Claim C8 (witness): the pre-transformation error policy at a concrete
2-D buffer. -/
theorem claim_C8_witness :
    crop_border_body twoD2 (1/50) = Except.error twoD2 ∧
    crop_border twoD2 (1/50) = unsqueeze twoD2 :=
  claim_C8_corrected twoD2 (1/50) (by decide) (by decide)

/-- Claim C9: for a well-formed `[C, H, W]` image with positive height and
width, the rectangle produced by `_detect_borders` satisfies
`0 ≤ top < bottom ≤ H` and `0 ≤ left < right ≤ W`, in the fallback and in the
normal outcome alike. -/
theorem claim_C9_confirmed (img : Tensor) (t : ℚ) (C H W : ℕ)
    (hs : img.shape = [C, H, W]) (hH : 1 ≤ H) (hW : 1 ≤ W)
    (top left bottom right : ℕ)
    (hdet : _detect_borders img t = (top, left, bottom, right)) :
    0 ≤ top ∧ top < bottom ∧ bottom ≤ H ∧ 0 ≤ left ∧ left < right ∧ right ≤ W := by
  have hd1 : dim img 1 = H := by rw [dim, hs]; rfl
  have hd2 : dim img 2 = W := by rw [dim, hs]; rfl
  simp only [_detect_borders, hd1, hd2] at hdet
  split_ifs at hdet <;> simp only [Prod.mk.injEq] at hdet <;> omega

/-- Claim C9 (witness): the invariant at a concrete 1×1 image. -/
theorem claim_C9_witness :
    (0 : ℕ) ≤ 0 ∧ 0 < 1 ∧ 1 ≤ 1 ∧ (0 : ℕ) ≤ 0 ∧ 0 < 1 ∧ 1 ≤ 1 :=
  claim_C9_confirmed unifCHW (1/50) 3 1 1 rfl (by omega) (by omega) 0 0 1 1
    (detect_uniform 1 1 (1/2) (1/50) (by omega) (by omega))

/-- Claim C10: a 4-D input with a nonempty batch axis is processed exactly as
its image at batch index 0 (images at the other indices have no effect), and
the output's leading batch axis has size exactly 1. -/
theorem claim_C10_confirmed (img : Tensor) (t : ℚ)
    (h4 : img.shape.length = 4) (hN : img.shape.headD 0 ≠ 0) :
    crop_border img t = crop_border (index0 img) t ∧
    (crop_border img t).shape.headD 0 = 1 := by
  have htail : (index0 img).shape.length = 3 := by
    show img.shape.tail.length = 3
    rw [List.length_tail, h4]
  have hbody : crop_border_body img t = crop_border_rest (index0 img) t := by
    rw [crop_border_body, if_pos h4, if_neg hN]
  have hbody2 : crop_border_body (index0 img) t = crop_border_rest (index0 img) t := by
    rw [crop_border_body, if_neg (by rw [htail]; omega)]
  have heq : crop_border img t = crop_border (index0 img) t := by
    rw [crop_border, crop_border, hbody, hbody2]
  refine ⟨heq, ?_⟩
  rw [heq]
  rcases hrest : crop_border_rest (index0 img) t with e | out
  · have he3 : e.shape.length = 3 := rest_error_rank (index0 img) t htail hrest
    rw [crop_border, hbody2, hrest]
    show (if e.shape.length = 4 then e else unsqueeze e).shape.headD 0 = 1
    rw [if_neg (by omega)]
    rfl
  · obtain ⟨y, hy⟩ := rest_ok_unsqueeze (index0 img) t hrest
    rw [crop_border, hbody2, hrest, hy]
    rfl

/-- Claim C10 (witness): a concrete 2-image batch is processed as its first
image, and the output batch axis is 1. -/
theorem claim_C10_witness :
    crop_border batch2 (1/50) = crop_border (index0 batch2) (1/50) ∧
    (crop_border batch2 (1/50)).shape.headD 0 = 1 :=
  claim_C10_confirmed batch2 (1/50) (by decide) (by decide)
